import Mathlib

/- Verification development for the json_editor repository.

   The file shallowly embeds the two cores of the system:
   the client-side reconciliation engine
   (src/services/driveService.ts and src/contexts/FileContext.tsx)
   and the Express server's store-access core (server/server.js):
   paged listing, byte-fetch caching, prefix cache invalidation and the
   save-json upsert pipeline.  JavaScript strings are modelled as Lean
   `String`s and the JavaScript string builtins the code relies on
   (`startsWith`, `endsWith`, `includes`, `trim`, `split('_')`,
   `join('_')`, one-occurrence `replace`, `toLowerCase`) are modelled as
   executable functions on the underlying character lists.  JavaScript
   numbers are modelled as `ℚ`. -/

/- ───────────────────────── string builtins ───────────────────────── -/

/-- Model of the JavaScript builtin `s.startsWith(p)`. -/
def strStartsWith (s p : String) : Bool :=
  p.data.isPrefixOf s.data

/-- Model of the JavaScript builtin `s.endsWith(p)`. -/
def strEndsWith (s p : String) : Bool :=
  p.data.isSuffixOf s.data

/-- Helper for `strIncludes`: does `pat` occur inside the list? -/
def subListAt (pat : List Char) : List Char → Bool
  | [] => pat.isEmpty
  | c :: rest => pat.isPrefixOf (c :: rest) || subListAt pat rest

/-- Model of the JavaScript builtin `s.includes(sub)` (substring test). -/
def strIncludes (s sub : String) : Bool :=
  subListAt sub.data s.data

/-- Model of the JavaScript builtin `s.trim()`. -/
def strTrim (s : String) : String :=
  ⟨((s.data.dropWhile Char.isWhitespace).reverse.dropWhile Char.isWhitespace).reverse⟩

/-- Remove the first occurrence of `pat` from a character list; the rest of
the list is kept unchanged.  Models the one-occurrence semantics of the
JavaScript builtin `s.replace(pat, '')` with a plain-string pattern. -/
def stripFirstOcc (pat : List Char) : List Char → List Char
  | [] => []
  | c :: rest =>
    if pat.isPrefixOf (c :: rest) then (c :: rest).drop pat.length
    else c :: stripFirstOcc pat rest

/-- Embedding of `mdFile.name.replace('.md', '')` from
`driveService.ts` (`matchFilesWithFolders`): removes the first occurrence
of the substring `.md`, wherever it is, and nothing else. -/
def replaceMdOnce (s : String) : String :=
  ⟨stripFirstOcc ".md".data s.data⟩

/-- Helper for `splitOnUnderscore` (accumulator-passing). -/
def splitOnUnderscoreAux (acc : List Char) : List Char → List (List Char)
  | [] => [acc.reverse]
  | c :: rest =>
    if c = '_' then acc.reverse :: splitOnUnderscoreAux [] rest
    else splitOnUnderscoreAux (c :: acc) rest

/-- Model of the JavaScript builtin `s.split('_')`. -/
def splitOnUnderscore (s : String) : List (List Char) :=
  splitOnUnderscoreAux [] s.data

/-- Model of the JavaScript builtin `parts.join('_')`. -/
def joinUnderscore (parts : List (List Char)) : List Char :=
  List.intercalate ['_'] parts

/-- Model of the JavaScript builtin `s.toLowerCase()` on a character list. -/
def lowerChars (cs : List Char) : List Char :=
  cs.map Char.toLower

/- ───────────────────────── client data model ───────────────────────── -/

/-- The status literals `'pending' | 'in-progress' | 'completed'` of
`MarkdownFile.status` (src/types). -/
inductive Status where
  | pending
  | inProgress
  | completed
deriving DecidableEq, Repr

/-- The client-side `MarkdownFile` record (content omitted: the embedded
operations never read it). -/
structure MarkdownFile where
  id : String
  name : String
  matchingFolderId : Option String := none
  status : Status := .pending
deriving DecidableEq, Repr

/-- The client-side `JsonFile` record; `content` is modelled as an optional
text payload (`undefined` = `none`). -/
structure JsonFile where
  id : String
  name : String
  content : Option String := none
  folderId : String := ""
  edited : Bool := false
  approved : Bool := false
deriving DecidableEq, Repr

/-- The client-side `JsonFolder` record. -/
structure JsonFolder where
  id : String
  name : String
  files : List JsonFile := []
  matchingMarkdownId : Option String := none
  progress : ℚ := 0
deriving DecidableEq, Repr

/-- A `{id, name}` entry of a result folder's file list. -/
structure ResultFile where
  id : String
  name : String
deriving DecidableEq, Repr

/-- The client-side `ResultFolder` record returned by `fetchResultFiles`. -/
structure ResultFolder where
  folderId : String
  folderName : String
  files : List ResultFile := []
deriving DecidableEq, Repr

/- ─────────────────── matching (driveService.ts) ─────────────────── -/

/-- Markdown-side match key of `matchFilesWithFolders`:
`name.replace('.md','').split('_').slice(0,3).join('_')`. -/
def mdMatchKey (name : String) : List Char :=
  joinUnderscore ((splitOnUnderscore (replaceMdOnce name)).take 3)

/-- Folder-side match key of `matchFilesWithFolders`:
`name.split('_').slice(0,3).join('_')` (no extension handling). -/
def folderMatchKey (name : String) : List Char :=
  joinUnderscore ((splitOnUnderscore name).take 3)

/-- The case-insensitive key comparison
`folderPrefix.toLowerCase() === mdPrefix.toLowerCase()`. -/
def keysMatch (folderName mdName : String) : Bool :=
  lowerChars (folderMatchKey folderName) = lowerChars (mdMatchKey mdName)

/-- In-place update `matchedJsonFolders[folderIndex].matchingMarkdownId = …`:
the first folder whose id is `fid` records the markdown id. -/
def setMatchOnFirst (fid mdId : String) : List JsonFolder → List JsonFolder
  | [] => []
  | g :: rest =>
    if g.id = fid then { g with matchingMarkdownId := some mdId } :: rest
    else g :: setMatchOnFirst fid mdId rest

/-- One iteration of the `forEach` body of `matchFilesWithFolders`. -/
def matchStep (folders : List JsonFolder) (md : MarkdownFile) :
    MarkdownFile × List JsonFolder :=
  match folders.find? (fun f => keysMatch f.name md.name) with
  | none => (md, folders)
  | some f =>
    ({ md with matchingFolderId := some f.id }, setMatchOnFirst f.id md.id folders)

/-- Embedding of `matchFilesWithFolders` (driveService.ts): processes the
markdown files in listing order, threading the folder list through the
in-place `matchingMarkdownId` updates. -/
def matchFilesWithFolders :
    List MarkdownFile → List JsonFolder → List MarkdownFile × List JsonFolder
  | [], folders => ([], folders)
  | md :: rest, folders =>
    let p := matchStep folders md
    let q := matchFilesWithFolders rest p.2
    (p.1 :: q.1, q.2)

/- ───────────── progress and statuses (FileContext.tsx) ───────────── -/

/-- Embedding of `calcProgress` (FileContext.tsx): approved-flag progress. -/
def calcProgress (files : List JsonFile) : ℚ :=
  if files.length = 0 then 0
  else (((files.filter (fun f => f.approved)).length : ℚ) / (files.length : ℚ)) * 100

/-- Embedding of the state update of `updateJsonFile` (FileContext.tsx). -/
def updateJsonFile (folders : List JsonFolder) (jf : JsonFile) (content : String) :
    List JsonFolder :=
  folders.map (fun folder =>
    if folder.id = jf.folderId then
      let fs := folder.files.map (fun f =>
        if f.id = jf.id then { f with content := some content, edited := true } else f)
      { folder with files := fs, progress := calcProgress fs }
    else folder)

/-- Embedding of the folder update of `approveJsonFile` (FileContext.tsx). -/
def approveJsonFile (folders : List JsonFolder) (jf : JsonFile) : List JsonFolder :=
  folders.map (fun folder =>
    if folder.id = jf.folderId then
      let fs := folder.files.map (fun f =>
        if f.id = jf.id then { f with approved := true } else f)
      { folder with files := fs, progress := calcProgress fs }
    else folder)

/-- The base name `md.name.replace(/\.md$/, '')` used by
`determineFileStatuses`: a trailing `.md` is removed. -/
def mdBaseName (name : String) : String :=
  if strEndsWith name ".md" then ⟨name.data.take (name.data.length - 3)⟩ else name

/-- In-place update `folder.progress = progress` on the first folder of the
list whose id is `fid`. -/
def setProgressOnFirst (fid : String) (p : ℚ) : List JsonFolder → List JsonFolder
  | [] => []
  | g :: rest =>
    if g.id = fid then { g with progress := p } :: rest
    else g :: setProgressOnFirst fid p rest

/-- One iteration of the `map` body of `determineFileStatuses`
(FileContext.tsx): derives one markdown file's status and, when a result
folder matches, writes the overlap progress onto the matched json folder. -/
def determineOne (folders : List JsonFolder) (results : List ResultFolder)
    (md : MarkdownFile) : MarkdownFile × List JsonFolder :=
  match folders.find? (fun f => decide (some f.id = md.matchingFolderId)) with
  | none => ({ md with status := .pending }, folders)
  | some folder =>
    match results.find? (fun r => strIncludes (mdBaseName md.name) r.folderName) with
    | none =>
      ({ md with status := if folder.files.any (fun f => f.edited) then .inProgress else .pending },
       folders)
    | some r =>
      let jsonNames := folder.files.map (fun f => f.name)
      let resultNames := r.files.map (fun f => f.name)
      let completedCount := (jsonNames.filter (fun n => resultNames.contains n)).length
      let overlap : ℚ :=
        if jsonNames.length = 0 then 0
        else ((completedCount : ℚ) / (jsonNames.length : ℚ)) * 100
      ({ md with status :=
           if completedCount = 0 then .pending
           else if completedCount < jsonNames.length then .inProgress
           else .completed },
       setProgressOnFirst folder.id overlap folders)

/-- Embedding of `determineFileStatuses` (FileContext.tsx), threading the
folder list through the in-place `folder.progress` writes. -/
def determineFileStatuses :
    List MarkdownFile → List JsonFolder → List ResultFolder →
    List MarkdownFile × List JsonFolder
  | [], folders, _ => ([], folders)
  | md :: rest, folders, results =>
    let p := determineOne folders results md
    let q := determineFileStatuses rest p.2 results
    (p.1 :: q.1, q.2)

/- ───────────── extractValidJson (driveService.ts, client) ───────────── -/

/-- The pattern of the regular expression `/\/\/# sourceMappingURL=[^\n]*/`. -/
def smcPat : List Char := "//# sourceMappingURL=".data

/-- Drop characters up to (not including) the next newline: the `[^\n]*`
part of the source-map-comment regular expression. -/
def dropRestOfLine : List Char → List Char
  | [] => []
  | c :: rest => if c = '\n' then c :: rest else dropRestOfLine rest

/-- Embedding of `text.replace(/\/\/# sourceMappingURL=[^\n]*/, '')`:
removes the first source-map comment (pattern plus the rest of its line). -/
def removeSmcOnce : List Char → List Char
  | [] => []
  | c :: rest =>
    if smcPat.isPrefixOf (c :: rest) then dropRestOfLine ((c :: rest).drop smcPat.length)
    else c :: removeSmcOnce rest

/-- Embedding of `extractValidJson` (driveService.ts).  `JSON.parse` is an
external runtime builtin and is passed in as `parse` (`none` = it throws).
`.ok none` models resolving to the empty array, `.ok (some v)` the parsed
value, `.error ()` the `'Failed to parse response data'` rejection. -/
def extractValidJson {α : Type} (parse : String → Option α) (text : String) :
    Except Unit (Option α) :=
  if text = "" then .ok none
  else if strStartsWith (strTrim text) "//# sourceMappingURL" then .ok none
  else
    let jsonText := strTrim ⟨removeSmcOnce text.data⟩
    if jsonText = "" then .ok none
    else
      match parse jsonText with
      | some v => .ok (some v)
      | none => .error ()

/- ─────────────────── listAll (server/server.js) ─────────────────── -/

/-- One page answer of `drive.files.list`: the `files` batch and the
`nextPageToken` continuation. -/
structure PageData (I : Type) where
  files : List I
  nextPageToken : Option String
deriving DecidableEq, Repr

/-- Embedding of the `do … while (pageToken)` loop of `listAll`
(server/server.js).  The store is modelled by the list of its successive
answers to the page requests the loop issues: an `Except.error` answer is a
rejected request, which aborts the whole listing.  Returns the accumulated
listing (or the error) together with the number of page requests issued. -/
def listAllRun {I : Type} : List (Except String (PageData I)) → Except String (List I) × Nat
  | [] => (.error "StoreUnavailable", 0)
  | .error e :: _ => (.error e, 1)
  | .ok pd :: rest =>
    match pd.nextPageToken with
    | none => (.ok pd.files, 1)
    | some _ =>
      match listAllRun rest with
      | (.error e, n) => (.error e, n + 1)
      | (.ok out, n) => (.ok (pd.files ++ out), n + 1)

/-- The result of `listAll` alone (server/server.js). -/
def listAll {I : Type} (resps : List (Except String (PageData I))) : Except String (List I) :=
  (listAllRun resps).1

/-- A well-behaved store serving exactly the given pages: every page answer
succeeds and carries a continuation token precisely when pages follow. -/
def mkPageResps {I : Type} : List (List I) → List (Except String (PageData I))
  | [] => []
  | [p] => [.ok ⟨p, none⟩]
  | p :: q :: rest => .ok ⟨p, some "token"⟩ :: mkPageResps (q :: rest)

/- ──────────────────── cache (server/server.js) ──────────────────── -/

/-- Embedding of `cacheDel` (server/server.js): a non-empty argument deletes
every key starting with it, an empty one flushes the whole cache.  The
NodeCache instance is modelled as an association list. -/
def cacheDel {V : Type} (pref : String) (c : List (String × V)) : List (String × V) :=
  if pref = "" then [] else c.filter (fun kv => ! strStartsWith kv.1 pref)

/- ──────────── fetchFileBytes interleavings (server/server.js) ──────────── -/

/-- Where one execution of `fetchFileBytes` stands: before the cache check,
suspended on the Drive round trip, or returned. -/
inductive FetchPhase where
  | start
  | awaiting
  | done
deriving DecidableEq, Repr

/-- Two concurrent executions of `fetchFileBytes` for one file id: the shared
cache entry for that id, each caller's phase, and the number of Drive round
trips issued so far. -/
structure FetchWorld where
  cached : Bool
  phase0 : FetchPhase
  phase1 : FetchPhase
  trips : Nat
deriving DecidableEq, Repr

/-- The phase of caller `i`. -/
def phaseOf (w : FetchWorld) (i : Bool) : FetchPhase :=
  if i then w.phase1 else w.phase0

/-- Set the phase of caller `i`. -/
def withPhase (w : FetchWorld) (i : Bool) (p : FetchPhase) : FetchWorld :=
  if i then { w with phase1 := p } else { w with phase0 := p }

/-- One scheduler step of caller `i` through `fetchFileBytes`
(server/server.js): at `start` it runs the cache check — a hit returns at
once, a miss issues the Drive request (one round trip) and suspends; at
`awaiting` the response arrives, is written to the cache, and the call
returns.  The function has no pending-request map: the cache is its only
coordination point. -/
def stepFetch (w : FetchWorld) (i : Bool) : FetchWorld :=
  match phaseOf w i with
  | .start =>
    if w.cached then withPhase w i .done
    else { withPhase w i .awaiting with trips := w.trips + 1 }
  | .awaiting => { withPhase w i .done with cached := true }
  | .done => w

/-- The initial world: nothing cached, both callers before their cache check. -/
def initFetchWorld : FetchWorld := ⟨false, .start, .start, 0⟩

/-- Run a schedule (the sequence of caller ids picked by the event loop). -/
def runFetchSched (sched : List Bool) : FetchWorld :=
  sched.foldl stepFetch initFetchWorld

/- ─────────────── save-json pipeline (server/server.js) ─────────────── -/

/-- A Drive object as the save-json handler sees it: id and name. -/
structure DriveFile where
  id : String
  name : String
deriving DecidableEq, Repr

/-- The slice of the Drive state the save-json handler touches: the result
sub-folders, and the JSON files as (parent folder id, file) pairs. -/
structure Store where
  folders : List DriveFile
  files : List (String × DriveFile)
deriving DecidableEq, Repr

/-- The Drive calls the save-json handler can issue, in order of issue. -/
inductive StoreOp where
  | listFolders (name : String)
  | createFolder (name : String)
  | listFiles (folderId name : String)
  | deleteFile (id : String)
  | createFile (folderId name : String)
deriving DecidableEq, Repr

/-- The request body `{jsonFile: {name, content}, folderName}` of
POST /api/save-json; `content = none` models `undefined`. -/
structure SaveReq where
  folderName : String
  name : String
  content : Option String
deriving DecidableEq, Repr

/-- The handler's reply: HTTP 400 or the success message. -/
inductive SaveResp where
  | badRequest
  | okSaved
deriving DecidableEq, Repr

/-- What one run of the save-json handler produces: the reply, the store and
cache afterwards, and the trace of Drive calls issued. -/
structure SaveOutcome (V : Type) where
  resp : SaveResp
  store : Store
  cache : List (String × V)
  ops : List StoreOp
deriving Repr

/-- Final step of the save-json handler: create the replacement file and
invalidate the `result-index` cache entry. -/
def finishUpload {V : Type} (st : Store) (cache : List (String × V)) (req : SaveReq)
    (destId newFileId : String) (ops : List StoreOp) : SaveOutcome V :=
  ⟨.okSaved,
   { st with files := st.files ++ [(destId, ⟨newFileId, req.name⟩)] },
   cacheDel "result-index" cache,
   ops ++ [.createFile destId req.name]⟩

/-- Upsert step of the save-json handler: list same-named files in the
destination folder and delete the first hit before creating the new file. -/
def saveJsonUpload {V : Type} (st : Store) (cache : List (String × V)) (req : SaveReq)
    (destId newFileId : String) (ops : List StoreOp) : SaveOutcome V :=
  match st.files.filter (fun pf => decide (pf.1 = destId ∧ pf.2.name = req.name)) with
  | [] => finishUpload st cache req destId newFileId (ops ++ [.listFiles destId req.name])
  | e :: _ =>
    finishUpload { st with files := st.files.filter (fun pf => decide (¬ pf.2.id = e.2.id)) }
      cache req destId newFileId (ops ++ [.listFiles destId req.name, .deleteFile e.2.id])

/-- Embedding of the POST /api/save-json handler (server/server.js):
validation, find-or-create of the destination folder, delete-then-create
upsert, and invalidation of the `result-index` cache entry.  The ids Drive
would mint for a created folder and file are passed in. -/
def saveJson {V : Type} (st : Store) (cache : List (String × V)) (req : SaveReq)
    (newFolderId newFileId : String) : SaveOutcome V :=
  if req.folderName = "" ∨ req.name = "" ∨ req.content = none then
    ⟨.badRequest, st, cache, []⟩
  else
    match st.folders.filter (fun f => decide (f.name = req.folderName)) with
    | [] =>
      saveJsonUpload { st with folders := st.folders ++ [⟨newFolderId, req.folderName⟩] }
        cache req newFolderId newFileId
        [.listFolders req.folderName, .createFolder req.folderName]
    | m :: _ =>
      saveJsonUpload st cache req m.id newFileId [.listFolders req.folderName]

/- ───────────────────────── helper lemmas ───────────────────────── -/

/-- Every string starts with the empty string. -/
theorem strStartsWith_empty (s : String) : strStartsWith s "" = true := by
  have h0 : "".data = ([] : List Char) := by decide
  unfold strStartsWith
  rw [h0]
  exact List.isPrefixOf_iff_prefix.mpr List.nil_prefix

/-- Every string starts with itself. -/
theorem strStartsWith_self (s : String) : strStartsWith s s = true :=
  List.isPrefixOf_iff_prefix.mpr (List.prefix_refl _)

/- ─────────────────────────── claim C8 ─────────────────────────── -/

/-- Claim C8: for every cache state and prefix, `cacheDel` keeps exactly the
entries whose keys do not start with the prefix (all of them with their
values), and an empty (or absent, which defaults to empty) prefix removes
every entry.  Since every key starts with the empty string, the membership
characterization holds for the empty prefix as well. -/
theorem cache_del_exact {V : Type} (c : List (String × V)) (p : String) :
    (∀ (k : String) (v : V),
        (k, v) ∈ cacheDel p c ↔ ((k, v) ∈ c ∧ strStartsWith k p = false))
    ∧ cacheDel "" c = [] := by
  refine ⟨fun k v => ?_, by simp [cacheDel]⟩
  unfold cacheDel
  by_cases hp : p = ""
  · subst hp
    simp [strStartsWith_empty]
  · simp [hp, List.mem_filter]

/-- Witness for C8 at a concrete cache: the surviving entry is exactly the
one whose key does not start with the prefix, and flushing empties it. -/
theorem cache_del_exact_witness :
    ((("file-a", 1) ∈ cacheDel "result" [("result-index", 0), ("file-a", 1)] ↔
        (("file-a", 1) ∈ [("result-index", 0), ("file-a", 1)]
          ∧ strStartsWith "file-a" "result" = false)))
    ∧ cacheDel "" [("x", (2 : Nat))] = [] :=
  ⟨(cache_del_exact [("result-index", 0), ("file-a", 1)] "result").1 "file-a" 1,
   (cache_del_exact [("x", (2 : Nat))] "").2⟩

/- ─────────────────────────── claim C6 ─────────────────────────── -/

/-- Claim C6: a save-json request whose folder name is empty, whose item
name is empty, or whose content is undefined is answered with HTTP 400 and
performs no store call at all: the store and the cache are untouched and
the trace of Drive calls is empty. -/
theorem save_json_invalid_input {V : Type} (st : Store) (cache : List (String × V))
    (req : SaveReq) (newFolderId newFileId : String)
    (h : req.folderName = "" ∨ req.name = "" ∨ req.content = none) :
    saveJson st cache req newFolderId newFileId = ⟨.badRequest, st, cache, []⟩ := by
  unfold saveJson
  rw [if_pos h]

/-- Witness for C6: a request with undefined content is rejected without any
store call, on a concrete store and cache. -/
theorem save_json_invalid_input_witness :
    saveJson ⟨[⟨"F", "res"⟩], [("F", ⟨"a1", "x.json"⟩)]⟩
        ([("result-index", 0)] : List (String × Nat))
        ⟨"res", "x.json", none⟩ "nf" "nid"
      = ⟨.badRequest, ⟨[⟨"F", "res"⟩], [("F", ⟨"a1", "x.json"⟩)]⟩, [("result-index", 0)], []⟩ :=
  save_json_invalid_input _ _ _ _ _ (by decide)

/- ─────────────────────────── claim C3 ─────────────────────────── -/

/-- Claim C3: on a store serving N pages, `listAll` issues exactly N page
requests — following the continuation token while one is returned, stopping
when none is — and returns the concatenation of all pages in page order;
and when a page request errors after any run of token-carrying pages, the
whole listing fails with that error and no partial result. -/
theorem list_all_pages {I : Type} (pages : List (List I)) :
    (pages ≠ [] →
        listAllRun (mkPageResps pages) = (.ok pages.flatten, pages.length))
    ∧ ∀ (pre : List (List I)) (e : String),
        listAllRun ((pre.map fun p => .ok ⟨p, some "token"⟩) ++ [.error e])
          = (.error e, pre.length + 1) := by
  constructor
  · intro h
    induction pages with
    | nil => exact absurd rfl h
    | cons p rest ih =>
      cases rest with
      | nil => simp [mkPageResps, listAllRun]
      | cons q rs =>
        have ihh := ih (by simp)
        show listAllRun (.ok ⟨p, some "token"⟩ :: mkPageResps (q :: rs)) = _
        simp [listAllRun, ihh]
  · intro pre e
    induction pre with
    | nil => rfl
    | cons p ps ih =>
      show listAllRun (.ok ⟨p, some "token"⟩ :: ((ps.map fun p => .ok ⟨p, some "token"⟩) ++ [.error e])) = _
      simp [listAllRun, ih]

/-- Witness for C3 on a concrete two-page listing and a concrete failing
second page. -/
theorem list_all_pages_witness :
    listAllRun (mkPageResps [[1, 2], [3]]) = (.ok [1, 2, 3], 2)
    ∧ listAllRun (([[ (1 : Nat), 2]].map fun p => .ok ⟨p, some "token"⟩) ++ [.error "boom"])
      = (.error "boom", 2) :=
  ⟨(list_all_pages [[1, 2], [3]]).1 (by decide), (list_all_pages ([] : List (List Nat))).2 [[1, 2]] "boom"⟩

/- ─────────────────────────── claim C4 ─────────────────────────── -/

/-- Stable configuration of the two-caller fetch world: the byte cache is
populated, exactly one round trip has been issued, and no caller is still
suspended on a Drive request. -/
def dedupSettled (w : FetchWorld) : Prop :=
  w.cached = true ∧ w.trips = 1 ∧ w.phase0 ≠ .awaiting ∧ w.phase1 ≠ .awaiting

/-- One scheduler step preserves `dedupSettled`: once the cache holds the
bytes, a caller at its cache check returns without a round trip. -/
theorem dedupSettled_step (w : FetchWorld) (i : Bool) (h : dedupSettled w) :
    dedupSettled (stepFetch w i) := by
  obtain ⟨hc, ht, h0, h1⟩ := h
  cases i <;> unfold stepFetch phaseOf <;> simp only [Bool.false_eq_true, if_false, if_true]
  · cases hp : w.phase0 with
    | start => simp [hp, hc, withPhase, dedupSettled, ht, h1]
    | awaiting => exact absurd hp h0
    | done => simp [hp, dedupSettled, hc, ht, h0, h1]
  · cases hp : w.phase1 with
    | start => simp [hp, hc, withPhase, dedupSettled, ht, h0]
    | awaiting => exact absurd hp h1
    | done => simp [hp, dedupSettled, hc, ht, h0, h1]

/-- Any further schedule preserves `dedupSettled`. -/
theorem dedupSettled_fold (l : List Bool) (w : FetchWorld) (h : dedupSettled w) :
    dedupSettled (l.foldl stepFetch w) := by
  induction l generalizing w with
  | nil => exact h
  | cons i rest ih => exact ih _ (dedupSettled_step w i h)

/-- Claim C4 (amended): `fetchFileBytes` has no pending-request map, so only
the cache deduplicates.  When the second fetch starts after the first has
completed and cached the bytes (schedule `[0,0] ++ anything`), exactly one
round trip ever occurs; but two genuinely simultaneous fetches — both
passing the cache check before either response arrives, as in the
interleaved schedule — issue two round trips. -/
theorem fetch_dedup_amended :
    (∀ rest : List Bool, (runFetchSched ([false, false] ++ rest)).trips = 1)
    ∧ (runFetchSched [false, true, false, true]).phase0 = .done
    ∧ (runFetchSched [false, true, false, true]).phase1 = .done
    ∧ (runFetchSched [false, true, false, true]).trips = 2 := by
  refine ⟨fun rest => ?_, by decide, by decide, by decide⟩
  have h2 : runFetchSched ([false, false] ++ rest)
      = rest.foldl stepFetch (runFetchSched [false, false]) := by
    unfold runFetchSched
    rw [List.foldl_append]
  have hs : dedupSettled (runFetchSched [false, false]) := by
    refine ⟨by decide, by decide, by decide, by decide⟩
  rw [h2]
  exact (dedupSettled_fold rest _ hs).2.1

/-- Counterexample to C4 as stated: in the interleaved schedule both
simultaneous fetches for the same id complete, yet two adapter round trips
occur, not one. -/
theorem fetch_dedup_counterexample :
    (runFetchSched [false, true, false, true]).phase0 = .done
    ∧ (runFetchSched [false, true, false, true]).phase1 = .done
    ∧ ¬(runFetchSched [false, true, false, true]).trips = 1 := by decide

/- ─────────────────────── claims C2 and C7 ─────────────────────── -/

/-- The fields of a `JsonFolder` that the matching pass reads: id and name. -/
def folderSig (f : JsonFolder) : String × String := (f.id, f.name)

/-- Recording a markdown id on a folder changes no folder's id or name. -/
theorem setMatchOnFirst_sig (fid mdId : String) (l : List JsonFolder) :
    (setMatchOnFirst fid mdId l).map folderSig = l.map folderSig := by
  induction l with
  | nil => rfl
  | cons g rest ih =>
    unfold setMatchOnFirst
    by_cases h : g.id = fid
    · simp [h, folderSig]
    · simp [h, folderSig]
      exact ih

/-- Over two folder lists with the same ids and names in the same order,
the first key match yields the same folder id. -/
theorem find_keys_congr (mdName : String) (l l' : List JsonFolder)
    (h : l.map folderSig = l'.map folderSig) :
    (l.find? (fun f => keysMatch f.name mdName)).map (fun f => f.id)
      = (l'.find? (fun f => keysMatch f.name mdName)).map (fun f => f.id) := by
  induction l generalizing l' with
  | nil =>
    cases l' with
    | nil => rfl
    | cons g' rest' => simp at h
  | cons g rest ih =>
    cases l' with
    | nil => simp at h
    | cons g' rest' =>
      simp [folderSig] at h
      obtain ⟨⟨hid, hname⟩, hrest⟩ := h
      by_cases hq : keysMatch g.name mdName
      · simp [List.find?_cons, hq, hname ▸ hq, hid]
      · simp only [List.find?_cons]
        rw [show (keysMatch g.name mdName) = false by simpa using hq,
            show (keysMatch g'.name mdName) = false by simpa [hname] using hq]
        exact ih rest' hrest

/-- Per-document assignment of `matchFilesWithFolders`: the document gets
the first folder (in listing order) whose match key equals its own,
case-insensitively, and is untouched when none matches. -/
def assignMd (folders : List JsonFolder) (md : MarkdownFile) : MarkdownFile :=
  match folders.find? (fun f => keysMatch f.name md.name) with
  | none => md
  | some f => { md with matchingFolderId := some f.id }

/-- One matching iteration computes exactly the per-document assignment. -/
theorem matchStep_fst (folders : List JsonFolder) (md : MarkdownFile) :
    (matchStep folders md).1 = assignMd folders md := by
  unfold matchStep assignMd
  cases folders.find? (fun f => keysMatch f.name md.name) <;> rfl

/-- One matching iteration changes no folder's id or name. -/
theorem matchStep_sig (folders : List JsonFolder) (md : MarkdownFile) :
    ((matchStep folders md).2).map folderSig = folders.map folderSig := by
  unfold matchStep
  cases folders.find? (fun f => keysMatch f.name md.name)
  · rfl
  · simp [setMatchOnFirst_sig]

/-- The per-document assignment depends only on folder ids and names. -/
theorem assignMd_congr (l l' : List JsonFolder) (md : MarkdownFile)
    (h : l.map folderSig = l'.map folderSig) : assignMd l md = assignMd l' md := by
  have hf := find_keys_congr md.name l l' h
  unfold assignMd
  cases h1 : l.find? (fun f => keysMatch f.name md.name) with
  | none =>
    cases h2 : l'.find? (fun f => keysMatch f.name md.name) with
    | none => rfl
    | some f' => rw [h1, h2] at hf; simp at hf
  | some f =>
    cases h2 : l'.find? (fun f => keysMatch f.name md.name) with
    | none => rw [h1, h2] at hf; simp at hf
    | some f' =>
      rw [h1, h2] at hf
      simp at hf
      simp [hf]

/-- The markdown side of `matchFilesWithFolders` is the list of
per-document assignments against the original folder list. -/
theorem matchFilesWithFolders_fst (mds : List MarkdownFile) (folders : List JsonFolder) :
    (matchFilesWithFolders mds folders).1 = mds.map (assignMd folders) := by
  induction mds generalizing folders with
  | nil => rfl
  | cons md rest ih =>
    show ((matchStep folders md).1 :: (matchFilesWithFolders rest (matchStep folders md).2).1) = _
    rw [ih ((matchStep folders md).2), matchStep_fst]
    have he : assignMd ((matchStep folders md).2) = assignMd folders :=
      funext fun x => assignMd_congr _ _ x (matchStep_sig folders md)
    rw [he, List.map_cons]

/-- Modelled from the claim's words for comparison with the code: strip the
file extension — the final dot and everything after it — from a document
name that contains a dot. -/
def specStripExtension (s : String) : String :=
  if s.data.contains '.' then
    ⟨((s.data.reverse.dropWhile (fun c => decide (¬ c = '.'))).drop 1).reverse⟩
  else s

/-- Modelled from the claim's words: the document match key obtained by
stripping the file extension, splitting on `_` and rejoining the first
three segments. -/
def specDocMatchKey (name : String) : List Char :=
  joinUnderscore ((splitOnUnderscore (specStripExtension name)).take 3)

/-- Counterexample to C2 as stated: for the document `A_B_C.txt` and the
container `A_B_C`, the claim's extension-stripped keys agree (both
`A_B_C`), so the claim predicts a match — but the code only removes the
substring `.md`, computes document key `A_B_C.txt`, and assigns no
container. -/
theorem match_key_counterexample :
    lowerChars (specDocMatchKey "A_B_C.txt") = lowerChars (folderMatchKey "A_B_C")
    ∧ (matchFilesWithFolders
        [{ id := "m1", name := "A_B_C.txt" }]
        [{ id := "j1", name := "A_B_C" }]).1.map (fun m => m.matchingFolderId) = [none] := by
  decide

/-- Claim C2 (amended): the matching step computes each document's match
key by removing the first occurrence of the substring `.md` from its name
(not a general extension strip), splitting the remainder on `_` and
rejoining the first 3 segments with `_`; each container's key the same way
from its raw name with no removal; and it assigns each document the first
container in listing order whose key equals the document's key
case-insensitively, leaving the document untouched otherwise.  In
particular `RPT_2024_01_summary.md` matches `rpt_2024_01_data`. -/
theorem match_key_amended :
    (∀ (mds : List MarkdownFile) (folders : List JsonFolder),
        (matchFilesWithFolders mds folders).1
          = mds.map (fun md =>
              match folders.find? (fun f =>
                  decide (lowerChars (folderMatchKey f.name) = lowerChars (mdMatchKey md.name))) with
              | none => md
              | some f => { md with matchingFolderId := some f.id }))
    ∧ (matchFilesWithFolders
        [{ id := "m1", name := "RPT_2024_01_summary.md" }]
        [{ id := "j1", name := "rpt_2024_01_data" }]).1.map (fun m => m.matchingFolderId)
      = [some "j1"] := by
  refine ⟨fun mds folders => ?_, by decide⟩
  rw [matchFilesWithFolders_fst]
  rfl

/-- Counterexample to C7 as stated: two distinct documents whose names share
a match key are both assigned to the same single container, so a container
can be matched by more than one document. -/
theorem one_to_one_counterexample :
    (matchFilesWithFolders
        [{ id := "m1", name := "A_B_C_1.md" }, { id := "m2", name := "A_B_C_2.md" }]
        [{ id := "j1", name := "A_B_C_data" }]).1.map (fun m => m.matchingFolderId)
      = [some "j1", some "j1"]
    ∧ ¬("m1" : String) = "m2" := by decide

/-- Claim C7 (amended): each SourceDocument is assigned at most one
EditableContainer — its output record is exactly the per-document
assignment to the first key-matching container, so one `matchingFolderId`
at most — but the relation is not 1:1 in the other direction: documents
with colliding keys all map to the same first-listed container, whose
`matchingMarkdownId` retains only the last such document. -/
theorem one_to_one_amended :
    (∀ (mds : List MarkdownFile) (folders : List JsonFolder) (md' : MarkdownFile),
        md' ∈ (matchFilesWithFolders mds folders).1 →
        ∃ md ∈ mds, md' = assignMd folders md)
    ∧ (matchFilesWithFolders
        [{ id := "m1", name := "A_B_C_1.md" }, { id := "m2", name := "A_B_C_2.md" }]
        [{ id := "j1", name := "A_B_C_data" }]).2.map (fun f => f.matchingMarkdownId)
      = [some "m2"] := by
  refine ⟨fun mds folders md' hm => ?_, by decide⟩
  rw [matchFilesWithFolders_fst] at hm
  obtain ⟨md, hmd, rfl⟩ := List.mem_map.mp hm
  exact ⟨md, hmd, rfl⟩

/-- Witness for C7's universal part at a concrete input: the first output
document of the collision example is the assignment of the first input
document. -/
theorem one_to_one_amended_witness :
    ∃ md ∈ [({ id := "m1", name := "A_B_C_1.md" } : MarkdownFile),
            { id := "m2", name := "A_B_C_2.md" }],
      ({ id := "m1", name := "A_B_C_1.md", matchingFolderId := some "j1",
         status := .pending } : MarkdownFile)
        = assignMd [{ id := "j1", name := "A_B_C_data" }] md :=
  one_to_one_amended.1
    [{ id := "m1", name := "A_B_C_1.md" }, { id := "m2", name := "A_B_C_2.md" }]
    [{ id := "j1", name := "A_B_C_data" }]
    { id := "m1", name := "A_B_C_1.md", matchingFolderId := some "j1", status := .pending }
    (by decide)

/- ─────────────────────────── claim C9 ─────────────────────────── -/

/-- Arithmetic form of `calcProgress`: the approved share of the items,
multiplied out to `100 * approvedItemCount / totalItems`. -/
theorem calcProgress_eq (files : List JsonFile) :
    calcProgress files
      = (if files.length = 0 then 0
         else (100 * ((files.filter fun f => f.approved).length : ℚ)) / (files.length : ℚ)) := by
  unfold calcProgress
  by_cases h : files.length = 0
  · simp [h]
  · rw [if_neg h, if_neg h, div_mul_eq_mul_div, mul_comm]

/-- After `updateJsonFile`, the folder holding the edited item carries the
recomputed approved-flag progress of its (updated) item list. -/
theorem updateJsonFile_progress (folders : List JsonFolder) (jf : JsonFile)
    (content : String) (g : JsonFolder) (hmem : g ∈ updateJsonFile folders jf content)
    (hid : g.id = jf.folderId) : g.progress = calcProgress g.files := by
  unfold updateJsonFile at hmem
  obtain ⟨f, hf, hfg⟩ := List.mem_map.mp hmem
  by_cases hc : f.id = jf.folderId
  · simp only [hc, if_true, eq_self_iff_true] at hfg
    subst hfg
    rfl
  · simp only [if_neg hc] at hfg
    subst hfg
    exact absurd hid hc

/-- After `approveJsonFile`, the folder holding the approved item carries
the recomputed approved-flag progress of its (updated) item list. -/
theorem approveJsonFile_progress (folders : List JsonFolder) (jf : JsonFile)
    (g : JsonFolder) (hmem : g ∈ approveJsonFile folders jf)
    (hid : g.id = jf.folderId) : g.progress = calcProgress g.files := by
  unfold approveJsonFile at hmem
  obtain ⟨f, hf, hfg⟩ := List.mem_map.mp hmem
  by_cases hc : f.id = jf.folderId
  · simp only [hc, if_true, eq_self_iff_true] at hfg
    subst hfg
    rfl
  · simp only [if_neg hc] at hfg
    subst hfg
    exact absurd hid hc

/-- Claim C9: after any item edit (`updateJsonFile`) or approval
(`approveJsonFile`), the affected container's progress equals
`100 * approvedItemCount / totalItems` over its item list, and `0` when the
container has no items; in particular a container with 4 items of which 2
are approved has progress 50. -/
theorem progress_after_edit_or_approval :
    (∀ (folders : List JsonFolder) (jf : JsonFile) (content : String) (g : JsonFolder),
        (g ∈ updateJsonFile folders jf content ∨ g ∈ approveJsonFile folders jf) →
        g.id = jf.folderId →
        g.progress = (if g.files.length = 0 then 0
          else (100 * ((g.files.filter fun f => f.approved).length : ℚ)) / (g.files.length : ℚ)))
    ∧ calcProgress
        [{ id := "f1", name := "a", approved := true },
         { id := "f2", name := "b", approved := true },
         { id := "f3", name := "c" }, { id := "f4", name := "d" }] = 50 := by
  constructor
  · intro folders jf content g hmem hid
    rw [← calcProgress_eq]
    rcases hmem with h | h
    · exact updateJsonFile_progress folders jf content g h hid
    · exact approveJsonFile_progress folders jf g h hid
  · rw [calcProgress_eq]
    norm_num [List.filter]

/-- Witness for C9 on a concrete one-folder state with an empty item list:
the recomputed progress is the formula's value. -/
theorem progress_after_edit_or_approval_witness :
    ({ id := "J", name := "data", files := [], matchingMarkdownId := none,
       progress := 0 } : JsonFolder).progress
      = (if (([] : List JsonFile)).length = 0 then (0 : ℚ)
         else (100 * ((([] : List JsonFile).filter fun f => f.approved).length : ℚ))
            / (([] : List JsonFile).length : ℚ)) :=
  progress_after_edit_or_approval.1
    [{ id := "J", name := "data", files := [], matchingMarkdownId := none, progress := 0 }]
    { id := "i1", name := "x.json", folderId := "J" } "c"
    { id := "J", name := "data", files := [], matchingMarkdownId := none, progress := 0 }
    (Or.inl (by decide)) (by decide)

/- ─────────────────────────── claim C10 ─────────────────────────── -/

/-- Claim C10 (amended): a listing fetch whose body is empty — and likewise
any body whose trimmed text starts with `//# sourceMappingURL`, which
covers a body consisting only of a source-map comment but also one with
further content after it — resolves to the empty array; a body that does
not start with the comment, and whose text after removing the first
source-map comment and trimming is non-empty but unparseable, fails with
the parse error. -/
theorem extract_json_amended {α : Type} (parse : String → Option α) (text : String) :
    (text = "" → extractValidJson parse text = .ok none)
    ∧ (strStartsWith (strTrim text) "//# sourceMappingURL" = true →
        extractValidJson parse text = .ok none)
    ∧ (text ≠ "" →
        strStartsWith (strTrim text) "//# sourceMappingURL" = false →
        strTrim ⟨removeSmcOnce text.data⟩ ≠ "" →
        parse (strTrim ⟨removeSmcOnce text.data⟩) = none →
        extractValidJson parse text = .error ()) := by
  refine ⟨fun h => ?_, fun h => ?_, fun h1 h2 h3 h4 => ?_⟩
  · simp [extractValidJson, h]
  · unfold extractValidJson
    by_cases h0 : text = ""
    · simp [h0]
    · simp [h0, h]
  · unfold extractValidJson
    rw [if_neg h1, h2]
    simp only [Bool.false_eq_true, if_false]
    rw [if_neg h3, h4]

/-- Witness for C10: a plain unparseable body fails with the parse error,
and a body that starts with a source-map comment resolves to the empty
array even though unparseable content follows. -/
theorem extract_json_amended_witness :
    extractValidJson (fun _ => (none : Option Nat)) "notjson" = .error ()
    ∧ extractValidJson (fun _ => (none : Option Nat)) "//# sourceMappingURL=a.map\nbad"
        = .ok none :=
  ⟨(extract_json_amended (fun _ => (none : Option Nat)) "notjson").2.2
      (by decide) (by decide) (by decide) rfl,
   (extract_json_amended (fun _ => (none : Option Nat)) "//# sourceMappingURL=a.map\nbad").2.1
      (by decide)⟩

/-- Counterexample to C10 as stated: the body
`//# sourceMappingURL=a.map\nbad` is non-empty and does not consist only of
a source-map comment (after removing the comment, `bad` remains), `bad`
does not parse — yet the fetch resolves to the empty array instead of
failing with a parse error. -/
theorem extract_json_counterexample :
    ¬("//# sourceMappingURL=a.map\nbad" : String) = ""
    ∧ strTrim ⟨removeSmcOnce ("//# sourceMappingURL=a.map\nbad" : String).data⟩ = "bad"
    ∧ extractValidJson (fun _ => (none : Option Nat)) "//# sourceMappingURL=a.map\nbad"
        = .ok none :=
  ⟨by decide, by decide, by rfl⟩

/- ─────────────────────────── claim C5 ─────────────────────────── -/

/-- After invalidating the `result-index` region, no surviving cache entry
has that key. -/
theorem cacheDel_result_index_gone {V : Type} (cache : List (String × V))
    (kv : String × V) (h : kv ∈ cacheDel "result-index" cache) : ¬ kv.1 = "result-index" := by
  intro hk
  unfold cacheDel at h
  rw [if_neg (by decide)] at h
  have hp := (List.mem_filter.mp h).2
  rw [hk, strStartsWith_self] at hp
  simp at hp

/-- Counterexample to C5 as stated: a destination folder already holding
two files named `x.json` still holds two objects with that name after a
successful promote of `x.json` — only the first listed duplicate is
deleted before the replacement is created, so "exactly one object with
that name" fails. -/
theorem promote_upsert_counterexample :
    (saveJson (⟨[⟨"F", "res"⟩], [("F", ⟨"a1", "x.json"⟩), ("F", ⟨"a2", "x.json"⟩)]⟩ : Store)
        ([("result-index", 0)] : List (String × Nat)) ⟨"res", "x.json", some "c"⟩ "nf" "nid").resp
      = .okSaved
    ∧ (([("F", ⟨"a1", "x.json"⟩), ("F", ⟨"a2", "x.json"⟩)] : List (String × DriveFile)).filter
          (fun pf => decide (pf.1 = "F" ∧ pf.2.name = "x.json"))).length = 2
    ∧ ((saveJson (⟨[⟨"F", "res"⟩], [("F", ⟨"a1", "x.json"⟩), ("F", ⟨"a2", "x.json"⟩)]⟩ : Store)
          ([("result-index", 0)] : List (String × Nat)) ⟨"res", "x.json", some "c"⟩ "nf" "nid").store.files.filter
          (fun pf => decide (pf.1 = "F" ∧ pf.2.name = "x.json"))).length = 2 := by
  refine ⟨rfl, by decide, by decide⟩

/-- Claim C5 (amended): on a valid promote whose destination folder exists
and holds exactly one file with the item's name, that file is deleted
before the replacement is created (the delete call precedes the create
call in the trace), afterwards exactly one object with that name exists in
the destination folder, and the `result-index` cache entry is absent. -/
theorem promote_upsert_amended {V : Type} (st : Store) (cache : List (String × V))
    (req : SaveReq) (newFolderId newFileId : String) (f : DriveFile) (fs : List DriveFile)
    (e : String × DriveFile)
    (hv : ¬(req.folderName = "" ∨ req.name = "" ∨ req.content = none))
    (hm : st.folders.filter (fun x => decide (x.name = req.folderName)) = f :: fs)
    (he : st.files.filter (fun pf => decide (pf.1 = f.id ∧ pf.2.name = req.name)) = [e]) :
    (saveJson st cache req newFolderId newFileId).resp = .okSaved
    ∧ (saveJson st cache req newFolderId newFileId).ops
        = [.listFolders req.folderName, .listFiles f.id req.name, .deleteFile e.2.id,
           .createFile f.id req.name]
    ∧ ((saveJson st cache req newFolderId newFileId).store.files.filter
          (fun pf => decide (pf.1 = f.id ∧ pf.2.name = req.name))).length = 1
    ∧ ∀ kv ∈ (saveJson st cache req newFolderId newFileId).cache, ¬ kv.1 = "result-index" := by
  have step1 : saveJson st cache req newFolderId newFileId
      = saveJsonUpload st cache req f.id newFileId [.listFolders req.folderName] := by
    unfold saveJson
    rw [if_neg hv, hm]
  have step2 : saveJsonUpload st cache req f.id newFileId [.listFolders req.folderName]
      = finishUpload { st with files := st.files.filter (fun pf => decide (¬ pf.2.id = e.2.id)) }
          cache req f.id newFileId
          [.listFolders req.folderName, .listFiles f.id req.name, .deleteFile e.2.id] := by
    unfold saveJsonUpload
    rw [he]
    rfl
  rw [step1, step2]
  refine ⟨rfl, rfl, ?_, ?_⟩
  · simp only [finishUpload]
    rw [List.filter_append]
    have hcomm : (st.files.filter (fun pf : String × DriveFile => decide (¬ pf.2.id = e.2.id))).filter
          (fun pf : String × DriveFile => decide (pf.1 = f.id ∧ pf.2.name = req.name))
        = (st.files.filter (fun pf : String × DriveFile => decide (pf.1 = f.id ∧ pf.2.name = req.name))).filter
          (fun pf : String × DriveFile => decide (¬ pf.2.id = e.2.id)) := by
      rw [List.filter_filter, List.filter_filter]
      congr 1
      funext x
      rw [Bool.and_comm]
    rw [hcomm, he]
    simp
  · intro kv hkv
    simp only [finishUpload] at hkv
    exact cacheDel_result_index_gone cache kv hkv

/-- Witness for C5 on a concrete store whose destination folder holds one
same-named file: the trace deletes it then creates the replacement, one
object with the name remains, and the cache entry is gone. -/
theorem promote_upsert_amended_witness :
    (saveJson (⟨[⟨"F", "res"⟩], [("F", ⟨"a1", "x.json"⟩)]⟩ : Store)
        ([("result-index", 0), ("file-z", 1)] : List (String × Nat))
        ⟨"res", "x.json", some "c"⟩ "nf" "nid").resp = .okSaved
    ∧ (saveJson (⟨[⟨"F", "res"⟩], [("F", ⟨"a1", "x.json"⟩)]⟩ : Store)
        ([("result-index", 0), ("file-z", 1)] : List (String × Nat))
        ⟨"res", "x.json", some "c"⟩ "nf" "nid").ops
        = [.listFolders "res", .listFiles "F" "x.json", .deleteFile "a1", .createFile "F" "x.json"]
    ∧ ((saveJson (⟨[⟨"F", "res"⟩], [("F", ⟨"a1", "x.json"⟩)]⟩ : Store)
        ([("result-index", 0), ("file-z", 1)] : List (String × Nat))
        ⟨"res", "x.json", some "c"⟩ "nf" "nid").store.files.filter
          (fun pf => decide (pf.1 = "F" ∧ pf.2.name = "x.json"))).length = 1
    ∧ ∀ kv ∈ (saveJson (⟨[⟨"F", "res"⟩], [("F", ⟨"a1", "x.json"⟩)]⟩ : Store)
        ([("result-index", 0), ("file-z", 1)] : List (String × Nat))
        ⟨"res", "x.json", some "c"⟩ "nf" "nid").cache, ¬ kv.1 = "result-index" :=
  promote_upsert_amended (⟨[⟨"F", "res"⟩], [("F", ⟨"a1", "x.json"⟩)]⟩ : Store)
    ([("result-index", 0), ("file-z", 1)] : List (String × Nat))
    ⟨"res", "x.json", some "c"⟩ "nf" "nid" ⟨"F", "res"⟩ [] ("F", ⟨"a1", "x.json"⟩)
    (by decide) (by decide) (by decide)

/- ─────────────────────────── claim C1 ─────────────────────────── -/

/-- The fields of a `JsonFolder` that the status pass reads: id, name and
item list (the threaded `progress` writes touch none of them). -/
def folderCore (f : JsonFolder) : String × String × List JsonFile := (f.id, f.name, f.files)

/-- Writing a progress value changes no folder's id, name or items. -/
theorem setProgressOnFirst_core (fid : String) (p : ℚ) (l : List JsonFolder) :
    (setProgressOnFirst fid p l).map folderCore = l.map folderCore := by
  induction l with
  | nil => rfl
  | cons g rest ih =>
    unfold setProgressOnFirst
    by_cases h : g.id = fid
    · simp [h, folderCore]
    · simp [h, folderCore]
      exact ih

/-- Over two folder lists with the same cores in the same order, the first
id match yields the same core. -/
theorem find_id_congr (mid : Option String) (l l' : List JsonFolder)
    (h : l.map folderCore = l'.map folderCore) :
    (l.find? (fun f => decide (some f.id = mid))).map folderCore
      = (l'.find? (fun f => decide (some f.id = mid))).map folderCore := by
  induction l generalizing l' with
  | nil =>
    cases l' with
    | nil => rfl
    | cons g' rest' => simp at h
  | cons g rest ih =>
    cases l' with
    | nil => simp at h
    | cons g' rest' =>
      simp [folderCore] at h
      obtain ⟨⟨hid, hname, hfiles⟩, hrest⟩ := h
      rcases Bool.eq_false_or_eq_true (decide (some g.id = mid)) with hq | hq
      · have hq' : decide (some g'.id = mid) = true := by rw [← hid]; exact hq
        simp only [List.find?_cons, hq, hq']
        simp [folderCore, hid, hname, hfiles]
      · have hq' : decide (some g'.id = mid) = false := by rw [← hid]; exact hq
        simp only [List.find?_cons, hq, hq']
        exact ih rest' hrest

/-- The status `determineOne` derives for a document depends only on the
folder cores, not on the threaded progress values. -/
theorem determineOne_fst_congr (l l' : List JsonFolder) (results : List ResultFolder)
    (md : MarkdownFile) (h : l.map folderCore = l'.map folderCore) :
    (determineOne l results md).1 = (determineOne l' results md).1 := by
  have hf := find_id_congr md.matchingFolderId l l' h
  unfold determineOne
  cases h1 : l.find? (fun f => decide (some f.id = md.matchingFolderId)) with
  | none =>
    cases h2 : l'.find? (fun f => decide (some f.id = md.matchingFolderId)) with
    | none => rfl
    | some f' => rw [h1, h2] at hf; simp at hf
  | some f =>
    cases h2 : l'.find? (fun f => decide (some f.id = md.matchingFolderId)) with
    | none => rw [h1, h2] at hf; simp at hf
    | some f' =>
      rw [h1, h2] at hf
      simp [folderCore] at hf
      obtain ⟨hid, hname, hfiles⟩ := hf
      cases hr : results.find? (fun r => strIncludes (mdBaseName md.name) r.folderName) with
      | none => simp [hfiles]
      | some r => simp [hfiles]

/-- One status iteration changes no folder core. -/
theorem determineOne_snd_core (folders : List JsonFolder) (results : List ResultFolder)
    (md : MarkdownFile) :
    ((determineOne folders results md).2).map folderCore = folders.map folderCore := by
  unfold determineOne
  cases h1 : folders.find? (fun f => decide (some f.id = md.matchingFolderId)) with
  | none => rfl
  | some folder =>
    cases hr : results.find? (fun r => strIncludes (mdBaseName md.name) r.folderName) with
    | none => rfl
    | some r => simp [setProgressOnFirst_core]

/-- The markdown side of `determineFileStatuses` is the per-document status
derivation against the original folder list: the progress threading does
not feed back into any status. -/
theorem determineFileStatuses_fst (mds : List MarkdownFile) (folders : List JsonFolder)
    (results : List ResultFolder) :
    (determineFileStatuses mds folders results).1
      = mds.map (fun md => (determineOne folders results md).1) := by
  induction mds generalizing folders with
  | nil => rfl
  | cons md rest ih =>
    show ((determineOne folders results md).1
        :: (determineFileStatuses rest (determineOne folders results md).2 results).1) = _
    rw [ih ((determineOne folders results md).2)]
    have he : (fun x => (determineOne ((determineOne folders results md).2) results x).1)
        = fun x => (determineOne folders results x).1 :=
      funext fun x =>
        determineOne_fst_congr _ _ results x (determineOne_snd_core folders results md)
    rw [he, List.map_cons]

/-- The code's name-overlap count — container item names filtered by
membership in the result container's item names — as a `countP`. -/
theorem completedCount_eq (files : List JsonFile) (rfiles : List ResultFile) :
    ((files.map fun f => f.name).filter
        (fun n => (rfiles.map fun g => g.name).contains n)).length
      = (files.map fun f => f.name).countP
          (fun n => decide (n ∈ rfiles.map fun g => g.name)) := by
  rw [List.countP_eq_length_filter]
  have hcg : ∀ n ∈ (files.map fun f => f.name),
      ((rfiles.map fun g => g.name).contains n) = decide (n ∈ rfiles.map fun g => g.name) := by
    intro n _
    by_cases hm : n ∈ rfiles.map fun g => g.name <;> simp [hm]
  rw [List.filter_congr hcg]

/-- Writing a progress value on a list containing the target id produces a
folder with that id carrying exactly that value. -/
theorem setProgressOnFirst_mem (fid : String) (p : ℚ) (l : List JsonFolder)
    (h : ∃ f ∈ l, f.id = fid) :
    ∃ g ∈ setProgressOnFirst fid p l, g.id = fid ∧ g.progress = p := by
  induction l with
  | nil =>
    obtain ⟨f, hf, _⟩ := h
    exact absurd hf (List.not_mem_nil f)
  | cons a rest ih =>
    unfold setProgressOnFirst
    by_cases ha : a.id = fid
    · rw [if_pos ha]
      exact ⟨{ a with progress := p }, List.mem_cons_self _ _, ha, rfl⟩
    · rw [if_neg ha]
      obtain ⟨f, hf, hfid⟩ := h
      rcases List.mem_cons.mp hf with rfl | hfr
      · exact absurd hfid ha
      · obtain ⟨g, hg, hgp⟩ := ih ⟨f, hfr, hfid⟩
        exact ⟨g, List.mem_cons_of_mem _ hg, hgp⟩

/-- Full output of one status iteration when a folder and a result folder
both match. -/
theorem determineOne_result (folders : List JsonFolder) (results : List ResultFolder)
    (md : MarkdownFile) (folder : JsonFolder) (r : ResultFolder)
    (hfind : folders.find? (fun f => decide (some f.id = md.matchingFolderId)) = some folder)
    (hres : results.find? (fun x => strIncludes (mdBaseName md.name) x.folderName) = some r) :
    determineOne folders results md
      = ({ md with status :=
            if ((folder.files.map fun f => f.name).filter
                  (fun n => (r.files.map fun g => g.name).contains n)).length = 0 then .pending
            else if ((folder.files.map fun f => f.name).filter
                  (fun n => (r.files.map fun g => g.name).contains n)).length
                < (folder.files.map fun f => f.name).length then .inProgress
            else .completed },
         setProgressOnFirst folder.id
           (if (folder.files.map fun f => f.name).length = 0 then 0
            else ((((folder.files.map fun f => f.name).filter
                  (fun n => (r.files.map fun g => g.name).contains n)).length : ℚ)
               / (((folder.files.map fun f => f.name).length : ℚ))) * 100)
           folders) := by
  unfold determineOne
  rw [hfind, hres]

/-- Claim C1 (amended): each reconciliation pass derives every document's
status independently against the input folder list.  A document with no
matching container is `pending`.  With a matching container but no result
folder whose name occurs inside the document's base name (its name with a
trailing `.md` removed) — this substring test against the document name,
not name equality with the container, is how the code selects the result
folder — the status is `inProgress` when some container item is edited,
else `pending`.  When such a result folder exists, with `completedCount`
the number of container item names among the result's item names, the
status is `pending`/`inProgress`/`completed` as `completedCount` is zero,
properly between zero and the item count, or equal to it, and the matched
container's progress becomes `100 * completedCount / totalItems` (`0` when
the container is empty).  In particular 3 of 4 promoted item names give
`inProgress` and 4 of 4 give `completed`. -/
theorem determine_statuses_amended (mds : List MarkdownFile) (folders : List JsonFolder)
    (results : List ResultFolder) (md : MarkdownFile) :
    ((determineFileStatuses mds folders results).1
        = mds.map fun x => (determineOne folders results x).1)
    ∧ (folders.find? (fun f => decide (some f.id = md.matchingFolderId)) = none →
        ((determineOne folders results md).1).status = .pending)
    ∧ (∀ folder, folders.find? (fun f => decide (some f.id = md.matchingFolderId)) = some folder →
        ((results.find? (fun x => strIncludes (mdBaseName md.name) x.folderName) = none →
            ((determineOne folders results md).1).status
              = (if folder.files.any (fun f => f.edited) then .inProgress else .pending))
         ∧ ∀ r, results.find? (fun x => strIncludes (mdBaseName md.name) x.folderName) = some r →
             (((determineOne folders results md).1).status
                = (if (folder.files.map fun f => f.name).countP
                        (fun n => decide (n ∈ r.files.map fun g => g.name)) = 0 then .pending
                   else if (folder.files.map fun f => f.name).countP
                        (fun n => decide (n ∈ r.files.map fun g => g.name)) < folder.files.length
                   then .inProgress
                   else .completed))
             ∧ ∃ g ∈ (determineOne folders results md).2,
                 g.id = folder.id
                 ∧ g.progress
                     = (if folder.files.length = 0 then 0
                        else (100 * (((folder.files.map fun f => f.name).countP
                              (fun n => decide (n ∈ r.files.map fun g => g.name))) : ℚ))
                           / (folder.files.length : ℚ))))
    ∧ ((determineFileStatuses
          [{ id := "m", name := "A_B_C_doc.md", matchingFolderId := some "J" }]
          [{ id := "J", name := "A_B_C_data",
             files := [{ id := "x1", name := "a.json" }, { id := "x2", name := "b.json" },
                       { id := "x3", name := "c.json" }, { id := "x4", name := "d.json" }] }]
          [{ folderId := "R", folderName := "A_B_C",
             files := [⟨"r1", "a.json"⟩, ⟨"r2", "b.json"⟩, ⟨"r3", "c.json"⟩] }]).1.map
            fun x => x.status) = [.inProgress]
    ∧ ((determineFileStatuses
          [{ id := "m", name := "A_B_C_doc.md", matchingFolderId := some "J" }]
          [{ id := "J", name := "A_B_C_data",
             files := [{ id := "x1", name := "a.json" }, { id := "x2", name := "b.json" },
                       { id := "x3", name := "c.json" }, { id := "x4", name := "d.json" }] }]
          [{ folderId := "R", folderName := "A_B_C",
             files := [⟨"r1", "a.json"⟩, ⟨"r2", "b.json"⟩, ⟨"r3", "c.json"⟩,
                       ⟨"r4", "d.json"⟩] }]).1.map
            fun x => x.status) = [.completed] := by
  refine ⟨determineFileStatuses_fst mds folders results, fun h => ?_,
    fun folder hfind => ⟨fun hres => ?_, fun r hres => ⟨?_, ?_⟩⟩, by decide, by decide⟩
  · simp [determineOne, h]
  · simp [determineOne, hfind, hres]
  · rw [determineOne_result folders results md folder r hfind hres]
    show (if ((folder.files.map fun f => f.name).filter
            (fun n => (r.files.map fun g => g.name).contains n)).length = 0 then Status.pending
          else if ((folder.files.map fun f => f.name).filter
            (fun n => (r.files.map fun g => g.name).contains n)).length
              < (folder.files.map fun f => f.name).length then Status.inProgress
          else Status.completed) = _
    rw [completedCount_eq, List.length_map]
  · rw [determineOne_result folders results md folder r hfind hres]
    have hex : ∃ x ∈ folders, x.id = folder.id :=
      ⟨folder, List.mem_of_find?_eq_some hfind, rfl⟩
    obtain ⟨g, hg, hgid, hgp⟩ := setProgressOnFirst_mem folder.id
      (if (folder.files.map fun f => f.name).length = 0 then 0
       else ((((folder.files.map fun f => f.name).filter
             (fun n => (r.files.map fun g => g.name).contains n)).length : ℚ)
          / (((folder.files.map fun f => f.name).length : ℚ))) * 100) folders hex
    refine ⟨g, hg, hgid, ?_⟩
    rw [hgp, List.length_map, completedCount_eq]
    by_cases hlen : folder.files.length = 0
    · rw [if_pos hlen, if_pos hlen]
    · rw [if_neg hlen, if_neg hlen]
      ring

/-- Counterexample to C1 as stated: a result folder whose name equals the
matched container's raw name exactly, holding every one of the container's
item names — the claim then demands status `completed` — yields status
`pending`, because the code instead looks for a result folder whose name
occurs as a substring of the document's base name `A_B_C_doc`, and
`A_B_C_data` does not. -/
theorem determine_statuses_counterexample :
    ({ folderId := "R", folderName := "A_B_C_data",
       files := [⟨"r1", "x.json"⟩] } : ResultFolder).folderName
      = ({ id := "J", name := "A_B_C_data",
           files := [{ id := "x1", name := "x.json" }] } : JsonFolder).name
    ∧ (([({ id := "x1", name := "x.json" } : JsonFile)].map fun f => f.name).countP
        (fun n => decide (n ∈ ([⟨"r1", "x.json"⟩] : List ResultFile).map fun g => g.name)))
      = [({ id := "x1", name := "x.json" } : JsonFile)].length
    ∧ ((determineFileStatuses
          [{ id := "m", name := "A_B_C_doc.md", matchingFolderId := some "J" }]
          [{ id := "J", name := "A_B_C_data", files := [{ id := "x1", name := "x.json" }] }]
          [{ folderId := "R", folderName := "A_B_C_data", files := [⟨"r1", "x.json"⟩] }]).1.map
            fun x => x.status) = [.pending] := by
  refine ⟨rfl, by decide, by decide⟩

/-- Witness for C1's result-matched arm at a concrete input: with 3 of the
4 container item names among the result's item names, the derived status
is `inProgress`. -/
theorem determine_statuses_amended_witness :
    ((determineOne
        [{ id := "J", name := "A_B_C_data",
           files := [{ id := "x1", name := "a.json" }, { id := "x2", name := "b.json" },
                     { id := "x3", name := "c.json" }, { id := "x4", name := "d.json" }] }]
        [{ folderId := "R", folderName := "A_B_C",
           files := [⟨"r1", "a.json"⟩, ⟨"r2", "b.json"⟩, ⟨"r3", "c.json"⟩] }]
        { id := "m", name := "A_B_C_doc.md", matchingFolderId := some "J" }).1).status
      = .inProgress := by
  have h := (((determine_statuses_amended []
      [{ id := "J", name := "A_B_C_data",
         files := [{ id := "x1", name := "a.json" }, { id := "x2", name := "b.json" },
                   { id := "x3", name := "c.json" }, { id := "x4", name := "d.json" }] }]
      [{ folderId := "R", folderName := "A_B_C",
         files := [⟨"r1", "a.json"⟩, ⟨"r2", "b.json"⟩, ⟨"r3", "c.json"⟩] }]
      { id := "m", name := "A_B_C_doc.md", matchingFolderId := some "J" }).2.2.1
      { id := "J", name := "A_B_C_data",
        files := [{ id := "x1", name := "a.json" }, { id := "x2", name := "b.json" },
                  { id := "x3", name := "c.json" }, { id := "x4", name := "d.json" }] }
      (by decide)).2
      { folderId := "R", folderName := "A_B_C",
        files := [⟨"r1", "a.json"⟩, ⟨"r2", "b.json"⟩, ⟨"r3", "c.json"⟩] }
      (by decide)).1
  rw [h]
  decide
